import Mathlib

/-
  Shallow embedding of the CNC Press Brake Simulator engine
  (src/cnc_press_brake_simulator.go).

  Modelling conventions:
  * Go float64 values are modelled as rationals; all of the operations
    under study are comparisons and multiplications on exactly given
    inputs.
  * Go pointer mutation is modelled by explicit state passing: every
    operation that mutates a receiver or an argument in the source
    returns the updated value alongside its result.
  * Go nil pointers are modelled with Option.
  * Fallible operations return Except String, carrying the error text
    of the corresponding fmt.Errorf (without the formatted numbers).
-/

namespace CNCPressBrake

/-! Constants from the source file (lines 35-44). -/

def minSheetDimension : ℚ := 1/10
def maxSheetDimension : ℚ := 10000
def minBendRadius : ℚ := 0
def maxBendRadius : ℚ := 500
def minBendAngle : ℚ := 1
def maxBendAngle : ℚ := 179

/-- MaterialDetails holds properties of a specific material (source lines 64-70). -/
structure MaterialDetails where
  Name : String
  Density : ℚ
  YieldStress : ℚ
  TensileModulus : ℚ
  MinBendRadiusFactor : ℚ
deriving DecidableEq

/-- BendDirection indicates the direction of the bend (source lines 219-224). -/
inductive BendDirection where
  | Up
  | Down
deriving DecidableEq

/-- BendStep defines a single bend operation in a job (source lines 227-233).
The Go field SequenceOrder is an int that is only ever assigned the value
len(steps)+1, so it is modelled as a natural number. -/
structure BendStep where
  SequenceOrder : Nat
  Position : ℚ
  TargetAngle : ℚ
  Radius : ℚ
  Direction : BendDirection
deriving DecidableEq

/-- SheetMetal represents the workpiece (source lines 73-80). -/
structure SheetMetal where
  ID : String
  OriginalLength : ℚ
  Thickness : ℚ
  Width : ℚ
  Material : MaterialDetails
  CurrentBends : List BendStep
deriving DecidableEq

/-- NewSheetMetal creates a new sheet metal object (source lines 84-99). -/
def NewSheetMetal (id : String) (length width thickness : ℚ)
    (material : MaterialDetails) : Except String SheetMetal :=
  if length ≤ 0 ∨ width ≤ 0 ∨ thickness ≤ 0 then
    .error "sheet dimensions must be positive"
  else if material.Name = "" then
    .error "material must be specified"
  else
    .ok { ID := id
          OriginalLength := length
          Thickness := thickness
          Width := width
          Material := material
          CurrentBends := [] }

/-- ResetForm clears any applied bends, making the sheet flat again
(source lines 102-105). -/
def SheetMetal.ResetForm (s : SheetMetal) : SheetMetal :=
  { s with CurrentBends := [] }

/-- GetMinBendRadius computes the recommended minimum bend radius for the
material and thickness of the sheet (source lines 109-116). -/
def SheetMetal.GetMinBendRadius (s : SheetMetal) : ℚ :=
  if s.Thickness ≤ 0 then 0
  else if s.Material.MinBendRadiusFactor ≤ 0 then s.Thickness * (1/2)
  else s.Thickness * s.Material.MinBendRadiusFactor

/-- Punch represents the upper tool of the press brake (source lines 154-159). -/
structure Punch where
  Name : String
  Height : ℚ
  Angle : ℚ
  Radius : ℚ
deriving DecidableEq

/-- Die represents the lower tool of the press brake (source lines 162-167). -/
structure Die where
  Name : String
  VOpening : ℚ
  Angle : ℚ
  ShoulderRadius : ℚ
deriving DecidableEq

/-- Job represents a set of operations on a sheet metal (source lines 236-240).
The Go field Steps is a slice of pointers to steps that are never mutated
after being appended; it is modelled as a list of step values. -/
structure Job where
  Name : String
  Sheet : Option SheetMetal
  Steps : List BendStep
deriving DecidableEq

/-- NewJob creates a new job with a given name and sheet (source lines 243-251). -/
def NewJob (name : String) (sheet : Option SheetMetal) : Except String Job :=
  if name = "" then .error "job name cannot be empty"
  else
    match sheet with
    | none => .error "job must have a sheet defined"
    | some s => .ok { Name := name, Sheet := some s, Steps := [] }

/-- JobController manages job-related operations (source lines 254-256). -/
structure JobController where
  currentJob : Option Job
deriving DecidableEq

def NewJobController : JobController := { currentJob := none }

def JobController.GetCurrentJob (jc : JobController) : Option Job :=
  jc.currentJob

def JobController.SetCurrentJob (jc : JobController) (job : Option Job) :
    JobController :=
  { jc with currentJob := job }

/-- AddBendStepToCurrentJob adds a new bend step to the currently active job
after validating the bend parameters (source lines 264-290). On success it
returns the updated controller together with the appended step. -/
def JobController.AddBendStepToCurrentJob (jc : JobController)
    (pos angle radius : ℚ) (dir : BendDirection) :
    Except String (JobController × BendStep) :=
  match jc.currentJob with
  | none => .error "no current job selected"
  | some job =>
    match job.Sheet with
    | none => .error "current job has no sheet defined"
    | some sheet =>
      if pos ≤ 0 ∨ pos ≥ sheet.OriginalLength then
        .error "bend position is outside sheet length"
      else if radius < minBendRadius ∨ radius > maxBendRadius then
        .error "bend radius is outside allowed range"
      else if angle < minBendAngle ∨ angle > maxBendAngle then
        .error "bend angle is outside allowed range"
      else
        let step : BendStep :=
          { SequenceOrder := job.Steps.length + 1
            Position := pos
            TargetAngle := angle
            Radius := radius
            Direction := dir }
        .ok ({ jc with currentJob := some { job with Steps := job.Steps ++ [step] } },
             step)

/-- ClearBendStepsFromCurrentJob removes all bend steps from the current job
and resets the sheet form when a sheet is present (source lines 293-301). -/
def JobController.ClearBendStepsFromCurrentJob (jc : JobController) :
    Except String JobController :=
  match jc.currentJob with
  | none => .error "no current job to clear steps from"
  | some job =>
    .ok { jc with
          currentJob := some { job with
                               Steps := []
                               Sheet := job.Sheet.map SheetMetal.ResetForm } }

/-- PressBrake represents the simulated CNC machine (source lines 304-309). -/
structure PressBrake where
  Name : String
  currentPunch : Option Punch
  currentDie : Option Die
  totalPartsBentSession : Nat
deriving DecidableEq

/-- NewPressBrake (source lines 311-313); the session counter starts at 0. -/
def NewPressBrake (name : String) (punch : Option Punch) (die : Option Die) :
    PressBrake :=
  { Name := name
    currentPunch := punch
    currentDie := die
    totalPartsBentSession := 0 }

def PressBrake.SetPunch (pb : PressBrake) (p : Punch) : PressBrake :=
  { pb with currentPunch := some p }

def PressBrake.SetDie (pb : PressBrake) (d : Die) : PressBrake :=
  { pb with currentDie := some d }

def PressBrake.GetCurrentPunch (pb : PressBrake) : Option Punch :=
  pb.currentPunch

def PressBrake.GetCurrentDie (pb : PressBrake) : Option Die :=
  pb.currentDie

/-- ProcessJob simulates the bending process for a given job
(source lines 327-351). The Go function mutates the press brake counter and
the sheet reached through the job pointer; here the updated press brake and
job are returned together with the Except result. On an error return the
input press brake and job are handed back unchanged, exactly as the source
returns before any mutation. The step loop appends a dereferenced copy of
each step, in stored order, to the CurrentBends of the freshly reset sheet. -/
def PressBrake.ProcessJob (pb : PressBrake) (j : Option Job) :
    PressBrake × Option Job × Except String SheetMetal :=
  match j with
  | none => (pb, none, .error "job or sheet is nil")
  | some job =>
    match job.Sheet with
    | none => (pb, some job, .error "job or sheet is nil")
    | some sheet =>
      match pb.currentPunch, pb.currentDie with
      | some _, some _ =>
        let flat := sheet.ResetForm
        let formed :=
          { flat with
            CurrentBends := job.Steps.foldl (fun cb st => cb ++ [st]) flat.CurrentBends }
        ({ pb with totalPartsBentSession := pb.totalPartsBentSession + 1 },
         some { job with Sheet := some formed },
         .ok formed)
      | _, _ => (pb, some job, .error "tooling not set")

def PressBrake.GetTotalPartsBentSession (pb : PressBrake) : Nat :=
  pb.totalPartsBentSession

/-! The application level add-bend flow (source lines 995-1015).
The numeric inputs arrive here already parsed from the editor strings;
string parsing is UI plumbing outside the model. In the source the
AppController field currentJob and the field currentJob of its job
controller always alias the same job, so the flow is modelled over the
job controller state alone. -/

/-- The 1e-6 lower cutoff used by the radius warning check of
handleAddBendStep (source line 1012). -/
def radiusWarnEpsilon : ℚ := 1/1000000

/-- Outcome of one invocation of the add-bend-step UI flow. -/
inductive HandleAddOutcome where
  /-- A validation check failed; a status error is shown and nothing runs. -/
  | rejected (msg : String)
  /-- addStepAction ran immediately, with no confirmation dialog. -/
  | autoAdded
  /-- The confirmation dialog was shown; addStepAction is pending the
  external proceed or cancel decision. -/
  | warned (minRecommended : ℚ)
deriving DecidableEq

/-- The addStepAction closure of handleAddBendStep (source lines 1006-1011):
it calls AddBendStepToCurrentJob and keeps the controller unchanged when
that call fails. -/
def addStepAction (jc : JobController) (pos angle radius : ℚ)
    (dir : BendDirection) : JobController :=
  match jc.AddBendStepToCurrentJob pos angle radius dir with
  | .ok (jc2, _) => jc2
  | .error _ => jc

/-- handleAddBendStep (source lines 995-1015): validates the proposed bend,
then either runs addStepAction immediately or defers it behind the radius
warning confirmation dialog. Returns the outcome and the controller state
as it stands when the handler returns. -/
def handleAddBendStep (jc : JobController) (pos angle radius : ℚ)
    (dir : BendDirection) : HandleAddOutcome × JobController :=
  match jc.currentJob with
  | none => (.rejected "cannot add bend: no active job or sheet defined", jc)
  | some job =>
    match job.Sheet with
    | none => (.rejected "cannot add bend: no active job or sheet defined", jc)
    | some sheet =>
      if pos ≤ 0 ∨ pos ≥ sheet.OriginalLength then
        (.rejected "bend position outside sheet", jc)
      else if radius < minBendRadius ∨ radius > maxBendRadius then
        (.rejected "bend radius outside range", jc)
      else if angle < minBendAngle ∨ angle > maxBendAngle then
        (.rejected "bend angle outside range", jc)
      else
        let minSheetRadius := sheet.GetMinBendRadius
        if radius > radiusWarnEpsilon ∧ radius < minSheetRadius then
          (.warned minSheetRadius, jc)
        else
          (.autoAdded, addStepAction jc pos angle radius dir)

/-- The proceed decision of the radius warning dialog: the pending
addStepAction runs (source line 1013, first callback). -/
def confirmAddBend (jc : JobController) (pos angle radius : ℚ)
    (dir : BendDirection) : JobController :=
  addStepAction jc pos angle radius dir

/-- The cancel decision of the radius warning dialog: only a status message
is shown, the controller state is untouched (source line 1013, second
callback). -/
def cancelAddBend (jc : JobController) : JobController :=
  jc

/-! Concrete fixtures, mirroring the default objects of the source
(Steel material, source line 121; the initial 300 x 100 x 2 sheet,
source line 537; default punch and die, source lines 182 and 187). -/

def steelMat : MaterialDetails :=
  { Name := "Steel"
    Density := 7850
    YieldStress := 250
    TensileModulus := 200
    MinBendRadiusFactor := 3/2 }

def sheet300 : SheetMetal :=
  { ID := "DefaultSheet-001"
    OriginalLength := 300
    Thickness := 2
    Width := 100
    Material := steelMat
    CurrentBends := [] }

def job300 : Job :=
  { Name := "DefaultJob-001", Sheet := some sheet300, Steps := [] }

def jc300 : JobController := { currentJob := some job300 }

def defaultPunch : Punch :=
  { Name := "Default Punch", Height := 50, Angle := 90, Radius := 1 }

def defaultDie : Die :=
  { Name := "Default Die", VOpening := 16, Angle := 90, ShoulderRadius := 2 }

def pbDefault : PressBrake :=
  NewPressBrake "CNC Press Brake Simulator" (some defaultPunch) (some defaultDie)

def pbNoDie : PressBrake :=
  NewPressBrake "CNC Press Brake Simulator" (some defaultPunch) none

def stepAt50 : BendStep :=
  { SequenceOrder := 1, Position := 50, TargetAngle := 90, Radius := 3
    Direction := .Up }

def jobOneStep : Job :=
  { Name := "DefaultJob-001", Sheet := some sheet300, Steps := [stepAt50] }

/-! General lemmas about the embedded operations. -/

/-- The append loop of ProcessJob, expressed as a foldl, concatenates the
step list onto the accumulator. -/
theorem foldl_append_singleton (l acc : List BendStep) :
    l.foldl (fun cb st => cb ++ [st]) acc = acc ++ l := by
  induction l generalizing acc with
  | nil => simp
  | cons h t ih => simp [List.foldl, ih]

/-- Claim C6: for every sheet with thickness > 0, GetMinBendRadius returns
thickness * MinBendRadiusFactor when the MinBendRadiusFactor of the
material is positive, and thickness * 0.5 when it is nonpositive; for
thickness <= 0 it returns 0. -/
theorem C6_getMinBendRadius (s : SheetMetal) :
    (0 < s.Thickness →
      (0 < s.Material.MinBendRadiusFactor →
        s.GetMinBendRadius = s.Thickness * s.Material.MinBendRadiusFactor) ∧
      (s.Material.MinBendRadiusFactor ≤ 0 →
        s.GetMinBendRadius = s.Thickness * (1/2))) ∧
    (s.Thickness ≤ 0 → s.GetMinBendRadius = 0) := by
  unfold SheetMetal.GetMinBendRadius
  split_ifs with h1 h2
  · exact ⟨fun ht => absurd h1 (not_le.mpr ht), fun _ => rfl⟩
  · refine ⟨fun ht => ⟨fun hf => absurd h2 (not_le.mpr hf), fun _ => rfl⟩, ?_⟩
    intro ht; exact absurd ht h1
  · refine ⟨fun ht => ⟨fun _ => rfl, fun hf => absurd hf (not_le.mpr ?_)⟩, ?_⟩
    · exact lt_of_not_le h2
    · intro ht; exact absurd ht h1

/-- Witness for C6: the default Steel sheet has thickness 2 > 0 and factor
1.5 > 0, and its minimum bend radius evaluates to thickness times factor. -/
theorem C6_getMinBendRadius_witness :
    sheet300.GetMinBendRadius =
      sheet300.Thickness * sheet300.Material.MinBendRadiusFactor :=
  ((C6_getMinBendRadius sheet300).1 (by norm_num [sheet300])).1
    (by norm_num [sheet300, steelMat])

/-- Counterexample for C9: NewSheetMetal accepts an empty id. With all
dimensions positive and a named material, construction succeeds even though
the id is the empty string, contradicting the claim that an empty id is
rejected. -/
theorem C9_empty_id_accepted :
    NewSheetMetal "" 1 1 1 steelMat =
      .ok { ID := ""
            OriginalLength := 1
            Thickness := 1
            Width := 1
            Material := steelMat
            CurrentBends := [] } := by
  rfl

/-- Claim C9 (amended): NewSheetMetal returns an error whenever any of
length, width, thickness is <= 0 (the id is not validated and may be
empty); on success the returned sheet carries the given dimensions and
material and its CurrentBends list is empty. -/
theorem C9_newSheetMetal (id : String) (length width thickness : ℚ)
    (material : MaterialDetails) :
    ((length ≤ 0 ∨ width ≤ 0 ∨ thickness ≤ 0) →
      ∃ msg, NewSheetMetal id length width thickness material = .error msg) ∧
    (∀ s, NewSheetMetal id length width thickness material = .ok s →
      s.ID = id ∧ s.OriginalLength = length ∧ s.Width = width ∧
      s.Thickness = thickness ∧ s.Material = material ∧ s.CurrentBends = []) := by
  constructor
  · intro h
    unfold NewSheetMetal
    rw [if_pos h]
    exact ⟨_, rfl⟩
  · intro s hs
    unfold NewSheetMetal at hs
    split_ifs at hs
    injection hs with hs
    subst hs
    exact ⟨rfl, rfl, rfl, rfl, rfl, rfl⟩

/-- Witness for C9 (amended): a nonpositive length is rejected, and the
default construction succeeds carrying its inputs. -/
theorem C9_newSheetMetal_witness :
    (∃ msg, NewSheetMetal "S" (-1) 100 2 steelMat = .error msg) ∧
    (∀ s, NewSheetMetal "DefaultSheet-001" 300 100 2 steelMat = .ok s →
      s.ID = "DefaultSheet-001" ∧ s.OriginalLength = 300 ∧ s.Width = 100 ∧
      s.Thickness = 2 ∧ s.Material = steelMat ∧ s.CurrentBends = []) :=
  ⟨(C9_newSheetMetal "S" (-1) 100 2 steelMat).1 (Or.inl (by decide)),
   (C9_newSheetMetal "DefaultSheet-001" 300 100 2 steelMat).2⟩

/-- Claim C2: with a current job and sheet set, AddBendStepToCurrentJob
returns an error whenever position <= 0, position >= sheet.OriginalLength,
radius < 0, radius > 500, angle < 1, or angle > 179 (the error return hands
back no updated controller, so the step list is untouched); for parameters
inside all three ranges it succeeds and so does not reject on range
grounds. -/
theorem C2_addStep_range_checks (jc : JobController) (job : Job)
    (sheet : SheetMetal) (pos angle radius : ℚ) (dir : BendDirection)
    (hj : jc.currentJob = some job) (hs : job.Sheet = some sheet) :
    ((pos ≤ 0 ∨ pos ≥ sheet.OriginalLength ∨ radius < 0 ∨ radius > 500 ∨
      angle < 1 ∨ angle > 179) →
      ∃ msg, jc.AddBendStepToCurrentJob pos angle radius dir = .error msg) ∧
    ((0 < pos ∧ pos < sheet.OriginalLength ∧ 0 ≤ radius ∧ radius ≤ 500 ∧
      1 ≤ angle ∧ angle ≤ 179) →
      ∃ jc2 step,
        jc.AddBendStepToCurrentJob pos angle radius dir = .ok (jc2, step)) := by
  unfold JobController.AddBendStepToCurrentJob
  simp only [hj, hs, minBendRadius, minBendAngle, maxBendRadius, maxBendAngle]
  constructor
  · intro h
    split_ifs with h1 h2 h3
    · exact ⟨_, rfl⟩
    · exact ⟨_, rfl⟩
    · exact ⟨_, rfl⟩
    · exfalso
      push_neg at h1 h2 h3
      rcases h with h | h | h | h | h | h
      · exact absurd h (not_le.mpr h1.1)
      · exact absurd h (not_le.mpr h1.2)
      · exact absurd h (not_lt.mpr h2.1)
      · exact absurd h (not_lt.mpr h2.2)
      · exact absurd h (not_lt.mpr h3.1)
      · exact absurd h (not_lt.mpr h3.2)
  · rintro ⟨hp1, hp2, hr1, hr2, ha1, ha2⟩
    split_ifs with h1 h2 h3
    · rcases h1 with h | h
      · exact absurd hp1 (not_lt.mpr h)
      · exact absurd hp2 (not_lt.mpr h)
    · rcases h2 with h | h
      · exact absurd hr1 (not_le.mpr h)
      · exact absurd hr2 (not_le.mpr h)
    · rcases h3 with h | h
      · exact absurd ha1 (not_le.mpr h)
      · exact absurd ha2 (not_le.mpr h)
    · exact ⟨_, _, rfl⟩

/-- Witness for C2: on the default 300-long sheet, a bend at position 300
(the boundary) is rejected, and a bend at position 50, angle 90, radius 3
is accepted. -/
theorem C2_addStep_range_checks_witness :
    (∃ msg, jc300.AddBendStepToCurrentJob 300 90 3 .Up = .error msg) ∧
    (∃ jc2 step, jc300.AddBendStepToCurrentJob 50 90 3 .Up = .ok (jc2, step)) :=
  ⟨(C2_addStep_range_checks jc300 job300 sheet300 300 90 3 .Up rfl rfl).1
     (Or.inr (Or.inl (by decide))),
   (C2_addStep_range_checks jc300 job300 sheet300 50 90 3 .Up rfl rfl).2
     ⟨by decide, by decide, by decide, by decide, by decide, by decide⟩⟩

/-- ResetForm is idempotent: clearing an already flat sheet changes nothing. -/
theorem resetForm_idem (s : SheetMetal) : s.ResetForm.ResetForm = s.ResetForm :=
  rfl

/-- ResetForm idempotence lifted through Option.map. -/
theorem map_resetForm_idem (o : Option SheetMetal) :
    (o.map SheetMetal.ResetForm).map SheetMetal.ResetForm =
      o.map SheetMetal.ResetForm := by
  cases o <;> rfl

/-- Normal form of a successful ProcessJob call: with sheet, punch and die
present, the call returns the press brake with its counter bumped by one,
the job rebound to the formed sheet, and the formed sheet whose
CurrentBends are exactly the steps of the job in stored order. -/
theorem processJob_ok (pb : PressBrake) (job : Job) (sheet : SheetMetal)
    (p : Punch) (d : Die) (hs : job.Sheet = some sheet)
    (hp : pb.currentPunch = some p) (hd : pb.currentDie = some d) :
    pb.ProcessJob (some job) =
      ({ pb with totalPartsBentSession := pb.totalPartsBentSession + 1 },
       some { job with
              Sheet := some { sheet.ResetForm with CurrentBends := job.Steps } },
       .ok { sheet.ResetForm with CurrentBends := job.Steps }) := by
  unfold PressBrake.ProcessJob
  simp only [hs, hp, hd]
  rw [foldl_append_singleton]
  simp [SheetMetal.ResetForm]

/-- Claim C3: for every job with a sheet and a press brake with punch and
die set, ProcessJob succeeds and leaves the CurrentBends of the returned
sheet equal to the step list of the job in its stored order, and a repeated
invocation on the resulting state (the job unchanged apart from its
rebound sheet, which every call first resets) produces the same
CurrentBends again. -/
theorem C3_processJob_deterministic (pb : PressBrake) (job : Job)
    (sheet : SheetMetal) (p : Punch) (d : Die)
    (hs : job.Sheet = some sheet) (hp : pb.currentPunch = some p)
    (hd : pb.currentDie = some d) :
    ∃ pb1 job1 sheet1,
      pb.ProcessJob (some job) = (pb1, some job1, .ok sheet1) ∧
      sheet1.CurrentBends = job.Steps ∧
      job1.Steps = job.Steps ∧ job1.Sheet = some sheet1 ∧
      pb1.currentPunch = pb.currentPunch ∧ pb1.currentDie = pb.currentDie ∧
      ∃ pb2 job2 sheet2,
        pb1.ProcessJob (some job1) = (pb2, some job2, .ok sheet2) ∧
        sheet2.CurrentBends = job.Steps :=
  ⟨_, _, _, processJob_ok pb job sheet p d hs hp hd, rfl, rfl, rfl, rfl, rfl,
   _, _, _, processJob_ok _ _ _ p d rfl hp hd, rfl⟩

/-- Witness for C3: the default press brake processing the one-step default
job succeeds twice with the same formed state. -/
theorem C3_processJob_deterministic_witness :
    ∃ pb1 job1 sheet1,
      pbDefault.ProcessJob (some jobOneStep) = (pb1, some job1, .ok sheet1) ∧
      sheet1.CurrentBends = jobOneStep.Steps ∧
      job1.Steps = jobOneStep.Steps ∧ job1.Sheet = some sheet1 ∧
      pb1.currentPunch = pbDefault.currentPunch ∧
      pb1.currentDie = pbDefault.currentDie ∧
      ∃ pb2 job2 sheet2,
        pb1.ProcessJob (some job1) = (pb2, some job2, .ok sheet2) ∧
        sheet2.CurrentBends = jobOneStep.Steps :=
  C3_processJob_deterministic pbDefault jobOneStep sheet300 defaultPunch
    defaultDie rfl rfl rfl

/-- Claim C4: ProcessJob returns an error and hands back the press brake
and the job argument unchanged (so CurrentBends, the step list and the
session counter are untouched) when the job is nil, its sheet is nil, or
the punch or the die is unset. -/
theorem C4_processJob_preconditions (pb : PressBrake) (j : Option Job)
    (h : j = none ∨ (∃ job, j = some job ∧ job.Sheet = none) ∨
         pb.currentPunch = none ∨ pb.currentDie = none) :
    ∃ msg, pb.ProcessJob j = (pb, j, .error msg) := by
  unfold PressBrake.ProcessJob
  rcases h with h | ⟨job, hj, hsheet⟩ | h | h
  · subst h; exact ⟨_, rfl⟩
  · subst hj
    simp only [hsheet]
    exact ⟨_, rfl⟩
  · cases j with
    | none => exact ⟨_, rfl⟩
    | some job =>
      cases hsheet : job.Sheet with
      | none => simp only [hsheet]; exact ⟨_, rfl⟩
      | some s => simp only [hsheet, h]; exact ⟨_, rfl⟩
  · cases j with
    | none => exact ⟨_, rfl⟩
    | some job =>
      cases hsheet : job.Sheet with
      | none => simp only [hsheet]; exact ⟨_, rfl⟩
      | some s =>
        cases hpunch : pb.currentPunch with
        | none => simp only [hsheet, hpunch]; exact ⟨_, rfl⟩
        | some p => simp only [hsheet, hpunch, h]; exact ⟨_, rfl⟩

/-- Witness for C4: processing with the die unset fails and leaves the
press brake and job untouched. -/
theorem C4_processJob_preconditions_witness :
    ∃ msg, pbNoDie.ProcessJob (some jobOneStep) =
      (pbNoDie, some jobOneStep, .error msg) :=
  C4_processJob_preconditions pbNoDie (some jobOneStep)
    (Or.inr (Or.inr (Or.inr rfl)))

/-- Claim C5: every successful ProcessJob call increments the session
counter by exactly 1 regardless of step count; two sequential successful
calls increase it by exactly 2; and the counter never decreases under any
press brake operation (ProcessJob on any argument, SetPunch, SetDie). -/
theorem C5_partsCounter (pb : PressBrake) (job : Job) (sheet : SheetMetal)
    (p : Punch) (d : Die) (hs : job.Sheet = some sheet)
    (hp : pb.currentPunch = some p) (hd : pb.currentDie = some d) :
    ((pb.ProcessJob (some job)).1.totalPartsBentSession =
      pb.totalPartsBentSession + 1) ∧
    (∀ job1, (pb.ProcessJob (some job)).2.1 = some job1 →
      ((pb.ProcessJob (some job)).1.ProcessJob (some job1)).1.totalPartsBentSession =
        pb.totalPartsBentSession + 2) ∧
    (∀ q : Option Job,
      pb.totalPartsBentSession ≤ (pb.ProcessJob q).1.totalPartsBentSession) ∧
    (∀ p2 : Punch,
      (pb.SetPunch p2).totalPartsBentSession = pb.totalPartsBentSession) ∧
    (∀ d2 : Die,
      (pb.SetDie d2).totalPartsBentSession = pb.totalPartsBentSession) := by
  refine ⟨?_, ?_, ?_, fun _ => rfl, fun _ => rfl⟩
  · rw [processJob_ok pb job sheet p d hs hp hd]
  · intro job1 h1
    rw [processJob_ok pb job sheet p d hs hp hd] at h1
    dsimp only at h1
    injection h1 with h1
    subst h1
    rw [processJob_ok pb job sheet p d hs hp hd]
    dsimp only
    rw [processJob_ok
          { pb with totalPartsBentSession := pb.totalPartsBentSession + 1 }
          { job with
            Sheet := some { sheet.ResetForm with CurrentBends := job.Steps } }
          { sheet.ResetForm with CurrentBends := job.Steps }
          p d rfl hp hd]
  · intro q
    unfold PressBrake.ProcessJob
    cases q with
    | none => exact Nat.le_refl _
    | some job2 =>
      cases hsheet2 : job2.Sheet with
      | none => simp only [hsheet2]; exact Nat.le_refl _
      | some s2 =>
        simp only [hsheet2, hp, hd]
        exact Nat.le_succ _

/-- Witness for C5: the default press brake starts at 0 and reaches 1 after
one successful run of the one-step job. -/
theorem C5_partsCounter_witness :
    (pbDefault.ProcessJob (some jobOneStep)).1.totalPartsBentSession =
      pbDefault.totalPartsBentSession + 1 :=
  (C5_partsCounter pbDefault jobOneStep sheet300 defaultPunch defaultDie
    rfl rfl rfl).1

/-- Claim C10: a job accepted by ProcessJob keeps its own Steps list
completely unchanged; the formed state of the sheet receives value copies
of the steps, so the planned sequence and the formed state are separate
lists that merely start out equal. -/
theorem C10_processJob_frames_steps (pb : PressBrake) (job : Job)
    (sheet : SheetMetal) (p : Punch) (d : Die) (hs : job.Sheet = some sheet)
    (hp : pb.currentPunch = some p) (hd : pb.currentDie = some d) :
    ∃ pb1 job1 sheet1,
      pb.ProcessJob (some job) = (pb1, some job1, .ok sheet1) ∧
      job1.Steps = job.Steps ∧ sheet1.CurrentBends = job.Steps :=
  ⟨_, _, _, processJob_ok pb job sheet p d hs hp hd, rfl, rfl⟩

/-- Witness for C10: processing the one-step default job leaves its Steps
list equal to what it was. -/
theorem C10_processJob_frames_steps_witness :
    ∃ pb1 job1 sheet1,
      pbDefault.ProcessJob (some jobOneStep) = (pb1, some job1, .ok sheet1) ∧
      job1.Steps = jobOneStep.Steps ∧ sheet1.CurrentBends = jobOneStep.Steps :=
  C10_processJob_frames_steps pbDefault jobOneStep sheet300 defaultPunch
    defaultDie rfl rfl rfl

/-- Claim C8: ClearBendStepsFromCurrentJob fails exactly when no current
job is set; otherwise it succeeds, empties the step list and resets the
sheet (when one is present) to the flat state with empty CurrentBends, and
it is idempotent: clearing the already cleared controller succeeds and
returns it unchanged. -/
theorem C8_clearSteps (jc : JobController) :
    (jc.currentJob = none →
      ∃ msg, jc.ClearBendStepsFromCurrentJob = .error msg) ∧
    (∀ job, jc.currentJob = some job →
      ∃ jc2 job2, jc.ClearBendStepsFromCurrentJob = .ok jc2 ∧
        jc2.currentJob = some job2 ∧ job2.Steps = [] ∧
        (∀ s, job.Sheet = some s →
          job2.Sheet = some s.ResetForm ∧ s.ResetForm.CurrentBends = []) ∧
        jc2.ClearBendStepsFromCurrentJob = .ok jc2) := by
  constructor
  · intro h
    unfold JobController.ClearBendStepsFromCurrentJob
    simp only [h]
    exact ⟨_, rfl⟩
  · intro job hj
    unfold JobController.ClearBendStepsFromCurrentJob
    simp only [hj]
    refine ⟨_, _, rfl, rfl, rfl, ?_, ?_⟩
    · intro s hsheet
      simp [hsheet, SheetMetal.ResetForm]
    · dsimp only
      rw [map_resetForm_idem]

/-- Witness for C8: clearing the fresh controller (no steps yet) succeeds,
leaves the step list empty, resets the sheet, and is stable under a second
clear; a controller with no current job errors. -/
theorem C8_clearSteps_witness :
    (∃ jc2 job2, jc300.ClearBendStepsFromCurrentJob = .ok jc2 ∧
      jc2.currentJob = some job2 ∧ job2.Steps = [] ∧
      (∀ s, job300.Sheet = some s →
        job2.Sheet = some s.ResetForm ∧ s.ResetForm.CurrentBends = []) ∧
      jc2.ClearBendStepsFromCurrentJob = .ok jc2) ∧
    (∃ msg, NewJobController.ClearBendStepsFromCurrentJob = .error msg) :=
  ⟨(C8_clearSteps jc300).2 job300 rfl, (C8_clearSteps NewJobController).1 rfl⟩

/-- Counterexample for C1: the warning branch of handleAddBendStep fires
only for radius strictly above 1e-6, not for every radius strictly above 0.
With the default Steel sheet (recommended minimum radius 3), a proposed
bend at position 50, angle 90 and radius 1/2000000 satisfies
0 < radius < GetMinBendRadius and passes every range check, yet the step is
appended immediately with no confirmation dialog. -/
theorem C1_tiny_radius_auto_added :
    ((0:ℚ) < 1/2000000 ∧ (1/2000000 : ℚ) < sheet300.GetMinBendRadius) ∧
    handleAddBendStep jc300 50 90 (1/2000000) .Up =
      (.autoAdded,
       { currentJob := some { job300 with
           Steps := [{ SequenceOrder := 1, Position := 50, TargetAngle := 90,
                       Radius := 1/2000000, Direction := .Up }] } }) := by
  constructor
  · constructor
    · norm_num
    · norm_num [SheetMetal.GetMinBendRadius, sheet300, steelMat]
  · norm_num [handleAddBendStep, addStepAction,
      JobController.AddBendStepToCurrentJob, jc300, job300, sheet300, steelMat,
      radiusWarnEpsilon, minBendRadius, maxBendRadius, minBendAngle,
      maxBendAngle]

/-- Claim C1 (amended): for every sheet and proposed bend that passes the
range checks with 1e-6 < radius < GetMinBendRadius(sheet) (the source uses
the 1e-6 cutoff, not 0, as the lower end of the warning band), the add
flow does not append automatically: it returns the warning with the state
unchanged, the explicit proceed decision appends the step, and the cancel
decision leaves the step list unchanged. -/
theorem C1_warning_requires_confirmation (jc : JobController) (job : Job)
    (sheet : SheetMetal) (pos angle radius : ℚ) (dir : BendDirection)
    (hj : jc.currentJob = some job) (hs : job.Sheet = some sheet)
    (hpos1 : 0 < pos) (hpos2 : pos < sheet.OriginalLength)
    (hr1 : 0 ≤ radius) (hr2 : radius ≤ 500)
    (ha1 : 1 ≤ angle) (ha2 : angle ≤ 179)
    (heps : radiusWarnEpsilon < radius)
    (hmin : radius < sheet.GetMinBendRadius) :
    handleAddBendStep jc pos angle radius dir =
      (.warned sheet.GetMinBendRadius, jc) ∧
    (∃ step, confirmAddBend jc pos angle radius dir =
        { jc with
          currentJob := some { job with Steps := job.Steps ++ [step] } } ∧
      step.SequenceOrder = job.Steps.length + 1 ∧ step.Position = pos ∧
      step.TargetAngle = angle ∧ step.Radius = radius ∧ step.Direction = dir) ∧
    cancelAddBend jc = jc := by
  have hbounds : ¬(pos ≤ 0 ∨ pos ≥ sheet.OriginalLength) ∧
      ¬(radius < minBendRadius ∨ radius > maxBendRadius) ∧
      ¬(angle < minBendAngle ∨ angle > maxBendAngle) := by
    unfold minBendRadius maxBendRadius minBendAngle maxBendAngle
    push_neg
    exact ⟨⟨hpos1, hpos2⟩, ⟨hr1, hr2⟩, ⟨ha1, ha2⟩⟩
  refine ⟨?_, ?_, rfl⟩
  · unfold handleAddBendStep
    simp only [hj, hs]
    rw [if_neg hbounds.1, if_neg hbounds.2.1, if_neg hbounds.2.2,
        if_pos ⟨heps, hmin⟩]
  · refine ⟨{ SequenceOrder := job.Steps.length + 1, Position := pos,
              TargetAngle := angle, Radius := radius, Direction := dir },
      ?_, rfl, rfl, rfl, rfl, rfl⟩
    unfold confirmAddBend addStepAction JobController.AddBendStepToCurrentJob
    simp only [hj, hs]
    rw [if_neg hbounds.1, if_neg hbounds.2.1, if_neg hbounds.2.2]

/-- Witness for C1 (amended): radius 1 on the default Steel sheet
(recommended minimum 3) triggers the warning, proceed appends, cancel
leaves the controller untouched. -/
theorem C1_warning_requires_confirmation_witness :
    handleAddBendStep jc300 50 90 1 .Up =
      (.warned sheet300.GetMinBendRadius, jc300) ∧
    (∃ step, confirmAddBend jc300 50 90 1 .Up =
        { jc300 with
          currentJob := some { job300 with Steps := job300.Steps ++ [step] } } ∧
      step.SequenceOrder = job300.Steps.length + 1 ∧ step.Position = 50 ∧
      step.TargetAngle = 90 ∧ step.Radius = 1 ∧ step.Direction = .Up) ∧
    cancelAddBend jc300 = jc300 :=
  C1_warning_requires_confirmation jc300 job300 sheet300 50 90 1 .Up rfl rfl
    (by norm_num) (by norm_num [sheet300]) (by norm_num) (by norm_num)
    (by norm_num) (by norm_num) (by norm_num [radiusWarnEpsilon])
    (by norm_num [SheetMetal.GetMinBendRadius, sheet300, steelMat])

/-- The dense 1-based sequence invariant: the step at 0-indexed position i
carries SequenceOrder i+1. -/
def seqOrdered (steps : List BendStep) : Prop :=
  ∀ i (h : i < steps.length), steps[i].SequenceOrder = i + 1

theorem seqOrdered_nil : seqOrdered [] := by
  intro i h
  simp at h

/-- Appending a step whose SequenceOrder is the new length preserves the
sequence invariant. -/
theorem seqOrdered_concat (l : List BendStep) (st : BendStep)
    (hl : seqOrdered l) (hst : st.SequenceOrder = l.length + 1) :
    seqOrdered (l ++ [st]) := by
  intro i h
  have hlen : i < l.length + 1 := by simpa using h
  rcases Nat.lt_or_ge i l.length with hi | hi
  · rw [List.getElem_append_left hi]
    exact hl i hi
  · have hi2 : i = l.length := Nat.le_antisymm (Nat.lt_succ_iff.mp hlen) hi
    rw [List.getElem_concat_length l st i hi2, hst, hi2]

/-- Controller states reachable by any interleaving of successful add-step
and clear-steps operations, starting from a current job whose step list is
empty. -/
inductive ReachableJC : JobController → Prop where
  | start (job : Job) (h : job.Steps = []) :
      ReachableJC { currentJob := some job }
  | add (jc jc2 : JobController) (pos angle radius : ℚ) (dir : BendDirection)
      (step : BendStep) (hr : ReachableJC jc)
      (hok : jc.AddBendStepToCurrentJob pos angle radius dir = .ok (jc2, step)) :
      ReachableJC jc2
  | clear (jc jc2 : JobController) (hr : ReachableJC jc)
      (hok : jc.ClearBendStepsFromCurrentJob = .ok jc2) : ReachableJC jc2

/-- Inversion of a successful add: the controller had a job, the new step
got SequenceOrder len+1, and the job was rebuilt with the step appended. -/
theorem addBendStep_ok_inv (jc jc2 : JobController) (pos angle radius : ℚ)
    (dir : BendDirection) (step : BendStep)
    (h : jc.AddBendStepToCurrentJob pos angle radius dir = .ok (jc2, step)) :
    ∃ job, jc.currentJob = some job ∧
      step.SequenceOrder = job.Steps.length + 1 ∧
      jc2.currentJob = some { job with Steps := job.Steps ++ [step] } := by
  unfold JobController.AddBendStepToCurrentJob at h
  cases hj : jc.currentJob with
  | none =>
    simp only [hj] at h
    exact absurd h (by simp)
  | some job =>
    simp only [hj] at h
    cases hsheet : job.Sheet with
    | none =>
      simp only [hsheet] at h
      exact absurd h (by simp)
    | some sheet =>
      simp only [hsheet] at h
      split_ifs at h
      injection h with h
      rw [Prod.mk.injEq] at h
      obtain ⟨h1, h2⟩ := h
      subst h1
      subst h2
      refine ⟨job, rfl, rfl, ?_⟩
      rw [hsheet]

/-- Inversion of a successful clear: the resulting current job has an empty
step list. -/
theorem clearSteps_ok_inv (jc jc2 : JobController)
    (h : jc.ClearBendStepsFromCurrentJob = .ok jc2) :
    ∃ job, jc2.currentJob = some job ∧ job.Steps = [] := by
  unfold JobController.ClearBendStepsFromCurrentJob at h
  cases hj : jc.currentJob with
  | none =>
    simp only [hj] at h
    exact absurd h (by simp)
  | some job =>
    simp only [hj] at h
    injection h with h
    subst h
    exact ⟨_, rfl, rfl⟩

/-- Claim C7: in every controller state reachable through any interleaving
of successful add-step calls and clear calls from an empty step list, the
step list is dense and 1-based: steps[i].SequenceOrder = i+1 for every
index i. -/
theorem C7_sequenceOrder_invariant (jc : JobController) (job : Job)
    (hr : ReachableJC jc) (hj : jc.currentJob = some job) :
    seqOrdered job.Steps := by
  have aux : ∀ jcx, ReachableJC jcx →
      ∀ jobx, jcx.currentJob = some jobx → seqOrdered jobx.Steps := by
    intro jcx hrx
    induction hrx with
    | start job0 h0 =>
      intro jobx hjx
      injection hjx with hjx
      subst hjx
      rw [h0]
      exact seqOrdered_nil
    | add jc1 jc2x pos angle radius dir step hr1 hok ih =>
      intro jobx hjx
      obtain ⟨job1, hjob1, hseq, hjc2⟩ :=
        addBendStep_ok_inv jc1 jc2x pos angle radius dir step hok
      rw [hjc2] at hjx
      injection hjx with hjx
      subst hjx
      exact seqOrdered_concat _ _ (ih job1 hjob1) hseq
    | clear jc1 jc2x hr1 hok ih =>
      intro jobx hjx
      obtain ⟨job2, hjob2, hsteps⟩ := clearSteps_ok_inv jc1 jc2x hok
      rw [hjob2] at hjx
      injection hjx with hjx
      subst hjx
      rw [hsteps]
      exact seqOrdered_nil
  exact aux jc hr job hj

/-- Witness for C7: the state reached from the empty default job by one
successful add satisfies the invariant. -/
theorem C7_sequenceOrder_invariant_witness :
    seqOrdered ({ job300 with Steps := [stepAt50] } : Job).Steps :=
  C7_sequenceOrder_invariant
    { currentJob := some { job300 with Steps := [stepAt50] } }
    { job300 with Steps := [stepAt50] }
    (ReachableJC.add jc300
      { currentJob := some { job300 with Steps := [stepAt50] } }
      50 90 3 .Up stepAt50 (ReachableJC.start job300 rfl) rfl)
    rfl

end CNCPressBrake
